import Mathlib

set_option maxHeartbeats 1000000

namespace CourtCaseVibe

/-- Association-list lookup by key; the first binding for a key wins, so
consing a fresh binding onto the front acts as an update. Used by the
gateway cache and the single-flight models. -/
def lookupA {κ β : Type} [DecidableEq κ] (k : κ) : List (κ × β) → Option β
  | [] => none
  | kv :: rest => if k = kv.1 then some kv.2 else lookupA k rest

/-- Provenance of a statute record: served straight from the cache, freshly
fetched live, or a stale cache entry returned after a failed refresh. -/
inductive Origin : Type
  | cache : Origin
  | live : Origin
  | stale : Origin
deriving DecidableEq

/-- Failure kinds of the Statute Source Gateway (spec section 7 taxonomy). -/
inductive FailureKind : Type
  | unreachable : FailureKind
  | notFound : FailureKind
  | parseError : FailureKind
deriving DecidableEq

/-- Position span of a reference inside the transcript. -/
structure Span : Type where
  start : Nat
  stop : Nat
deriving DecidableEq

/-- Modelled from the spec: the `Reference` record produced by the Citation
Extractor (the extractor's Python code is not under src): raw text, canonical
normalized id, span, and a confidence score in [0,1]. -/
structure Reference : Type where
  raw_text : String
  normalized_id : String
  span : Span
  confidence : ℚ
deriving DecidableEq

/-- Modelled from the spec: the `StatuteRecord` owned by the Statute Source
Gateway (the gateway's Python code is not under src). -/
structure StatuteRecord : Type where
  normalized_id : String
  title : String
  full_text : String
  source_url : String
  fetched_at : Nat
  origin : Origin
deriving DecidableEq

/-- Modelled from the spec: a cache entry wraps a `StatuteRecord` with the
time it was stored and its time-to-live. -/
structure CacheEntry : Type where
  record : StatuteRecord
  storedAt : Nat
  ttl : Nat
deriving DecidableEq

/-- Modelled from the spec: gateway state, the statute cache keyed by
normalized id plus a count of network fetch attempts (the fetch-counting
test double the spec asks cache correctness to be proved against). -/
structure GatewayState : Type where
  cache : List (String × CacheEntry)
  fetchCount : Nat
deriving DecidableEq

/-- Modelled from the spec: the deterministic URL template mapping a
normalized statute id to the authoritative document path. -/
def urlFor (id : String) : String :=
  "http://www.leg.state.fl.us/statutes/" ++ id ++ ".html"

/-- Build a fresh `StatuteRecord` from a successfully fetched and parsed
document. -/
def mkRecord (id title text : String) (now : Nat) (og : Origin) : StatuteRecord :=
  { normalized_id := id, title := title, full_text := text,
    source_url := urlFor id, fetched_at := now, origin := og }

/-- Modelled from the spec: `resolve(normalized_id) -> StatuteRecord or
failure(kind)` (gateway code not under src). A fresh cache entry is returned
with origin `cache` and no network access; otherwise a fetch is attempted via
the injected `fetcher` capability (which encapsulates the timeout/retry
budget of spec step 3). On success the full record replaces the cache entry;
on failure with an existing (even expired) entry the entry is returned marked
stale and the cache is left untouched; on failure with no entry the failure
kind is returned. Every fetch attempt increments `fetchCount`. -/
def resolve (ttl : Nat) (fetcher : String → Except FailureKind (String × String))
    (now : Nat) (id : String) (s : GatewayState) :
    Except FailureKind StatuteRecord × GatewayState :=
  match lookupA id s.cache with
  | some e =>
      if now < e.storedAt + e.ttl then
        (Except.ok { e.record with origin := Origin.cache }, s)
      else
        match fetcher (urlFor id) with
        | Except.ok tp =>
            let r := mkRecord id tp.1 tp.2 now Origin.live
            (Except.ok r,
             { cache := (id, ⟨r, now, ttl⟩) :: s.cache, fetchCount := s.fetchCount + 1 })
        | Except.error _ =>
            (Except.ok { e.record with origin := Origin.stale },
             { s with fetchCount := s.fetchCount + 1 })
  | none =>
      match fetcher (urlFor id) with
      | Except.ok tp =>
          let r := mkRecord id tp.1 tp.2 now Origin.live
          (Except.ok r,
           { cache := (id, ⟨r, now, ttl⟩) :: s.cache, fetchCount := s.fetchCount + 1 })
      | Except.error k => (Except.error k, { s with fetchCount := s.fetchCount + 1 })

/-- Reason for the score returned by the Semantic Comparator: a computed
embedding similarity, or the distinct empty-input reason. -/
inductive CompareReason : Type
  | computed : CompareReason
  | emptyInput : CompareReason
deriving DecidableEq

/-- Normalization of a raw cosine similarity in [-1,1] into [0,1]. -/
def normalizeCos (c : ℚ) : ℚ := (c + 1) / 2

/-- Modelled from the spec: `compare(excerpt, canonical_text) -> similarity
score in [0,1]` (comparator code not under src). The embedding model is a
replaceable capability, abstracted as `sim`, the raw cosine similarity of the
two embedded strings (range [-1,1]); the result is normalized via
`(cos+1)/2`. Degenerate inputs (empty excerpt or canonical text) return score
0 with the distinct empty-input reason; the function is total, so no
undefined or NaN value can be produced. -/
def compare (sim : String → String → ℚ) (excerpt canonical : String) :
    ℚ × CompareReason :=
  if excerpt = "" ∨ canonical = "" then (0, CompareReason.emptyInput)
  else (normalizeCos (sim excerpt canonical), CompareReason.computed)

/-- Verdict status: three-valued classification of a reference. -/
inductive Status : Type
  | matched : Status
  | discrepant : Status
  | unresolved : Status
deriving DecidableEq

/-- Reason codes attached to a verdict. -/
inductive Reason : Type
  | gatewayFailure : FailureKind → Reason
  | lowConfidence : Reason
  | belowThreshold : Reason
  | comparatorMissing : Reason
deriving DecidableEq

/-- Modelled from the spec: the `ComparisonResult` record of the Semantic
Comparator. -/
structure ComparisonResult : Type where
  normalized_id : String
  similarity_score : ℚ
  transcript_excerpt : String
  statute_excerpt : String
  method : String
deriving DecidableEq

/-- Modelled from the spec: the final per-reference `Verdict`. -/
structure Verdict : Type where
  normalized_id : String
  status : Status
  similarity_score : ℚ
  reasons : List Reason
deriving DecidableEq

/-- Externally configurable thresholds of the Discrepancy Classifier. -/
structure Config : Type where
  min_confidence : ℚ
  match_threshold : ℚ
deriving DecidableEq

/-- Outcome of a gateway resolution as consumed by the classifier. -/
inductive GatewayOutcome : Type
  | success : StatuteRecord → GatewayOutcome
  | failure : FailureKind → GatewayOutcome
deriving DecidableEq

/-- Repackage the gateway's result type as a classifier input. -/
def toOutcome : Except FailureKind StatuteRecord → GatewayOutcome
  | Except.ok r => GatewayOutcome.success r
  | Except.error k => GatewayOutcome.failure k

/-- Modelled from the spec: the Discrepancy Classifier's decision table
(classifier code not under src). Gateway failure yields `unresolved` with the
failure kind as reason; success with extraction confidence below the
configured minimum yields `unresolved` with a low-confidence reason; success
with a completed comparison yields `matched` when the score is at least
`match_threshold` (inclusive boundary) and `discrepant` when it is strictly
below. A success without a comparison result is outside the spec's table and
is mapped to `unresolved`. -/
def classify (cfg : Config) (ref : Reference) (comp : Option ComparisonResult)
    (out : GatewayOutcome) : Verdict :=
  match out with
  | GatewayOutcome.failure k =>
      { normalized_id := ref.normalized_id, status := Status.unresolved,
        similarity_score := 0, reasons := [Reason.gatewayFailure k] }
  | GatewayOutcome.success _ =>
      if ref.confidence < cfg.min_confidence then
        { normalized_id := ref.normalized_id, status := Status.unresolved,
          similarity_score := ((comp.map (fun c => c.similarity_score)).getD 0),
          reasons := [Reason.lowConfidence] }
      else
        match comp with
        | none =>
            { normalized_id := ref.normalized_id, status := Status.unresolved,
              similarity_score := 0, reasons := [Reason.comparatorMissing] }
        | some cr =>
            if cfg.match_threshold ≤ cr.similarity_score then
              { normalized_id := ref.normalized_id, status := Status.matched,
                similarity_score := cr.similarity_score, reasons := [] }
            else
              { normalized_id := ref.normalized_id, status := Status.discrepant,
                similarity_score := cr.similarity_score,
                reasons := [Reason.belowThreshold] }

/-- First-occurrence deduplication worker: keeps each key not already seen,
in order of first appearance. -/
def distinctAux : List String → List String → List String
  | [], _ => []
  | x :: xs, seen =>
      if x ∈ seen then distinctAux xs seen else x :: distinctAux xs (x :: seen)

/-- Modelled from the spec: deduplicate normalized ids while preserving
first-occurrence order (orchestrator code not under src). -/
def distinctKeys (l : List String) : List String := distinctAux l []

/-- Maximum of a list of scores, 0 when empty (the spec's most-charitable
max-across-occurrences merge). -/
def maxScore (l : List ℚ) : ℚ := l.foldr max 0

/-- Modelled from the spec: the merged reference standing for all occurrences
of one normalized id (duplicate spans are preserved separately in `occs`);
its confidence is the maximum confidence among the occurrences. -/
def mergedRef (id : String) (occs : List Reference) : Reference :=
  { raw_text := ((occs.head?).map (fun o => o.raw_text)).getD "",
    normalized_id := id,
    span := ((occs.head?).map (fun o => o.span)).getD ⟨0, 0⟩,
    confidence := (occs.map (fun o => o.confidence)).foldr max 0 }

/-- Modelled from the spec: per-id verdict construction of the Verification
Orchestrator (orchestrator code not under src): on gateway failure, classify
with the failure; on success, compare every occurrence's excerpt against the
canonical text, take the maximum score across occurrences, and classify. -/
def verdictFor (cfg : Config) (sim : String → String → ℚ)
    (excerptOf : Reference → String) (id : String) (occs : List Reference)
    (res : Except FailureKind StatuteRecord) : Verdict :=
  match res with
  | Except.error k => classify cfg (mergedRef id occs) none (GatewayOutcome.failure k)
  | Except.ok r =>
      let score := maxScore (occs.map (fun o => (compare sim (excerptOf o) r.full_text).1))
      let cr : ComparisonResult :=
        { normalized_id := id, similarity_score := score,
          transcript_excerpt := ((occs.head?).map excerptOf).getD "",
          statute_excerpt := r.full_text, method := "embedding-cosine" }
      classify cfg (mergedRef id occs) (some cr) (GatewayOutcome.success r)

/-- Modelled from the spec: resolve each distinct id via the Gateway,
threading the gateway state, and emit one verdict per id. -/
def verifyIds (cfg : Config) (ttl : Nat)
    (fetcher : String → Except FailureKind (String × String)) (now : Nat)
    (sim : String → String → ℚ) (excerptOf : Reference → String)
    (refs : List Reference) :
    List String → GatewayState → List Verdict × GatewayState
  | [], s => ([], s)
  | id :: ids, s =>
      let rs := resolve ttl fetcher now id s
      let v := verdictFor cfg sim excerptOf id
        (refs.filter (fun r => r.normalized_id = id)) rs.1
      let rest := verifyIds cfg ttl fetcher now sim excerptOf refs ids rs.2
      (v :: rest.1, rest.2)

/-- Modelled from the spec: `verify(transcript) -> sequence of Verdict`
(orchestrator code not under src). Extraction and excerpt-window construction
are injected capabilities; references are deduplicated by normalized id in
first-occurrence order, each distinct id is resolved and classified, and a
transcript with zero extracted references yields the empty sequence (never an
error: the function is total). -/
def verify (cfg : Config) (ttl : Nat)
    (fetcher : String → Except FailureKind (String × String)) (now : Nat)
    (sim : String → String → ℚ) (excerptOf : Reference → String)
    (extract : String → List Reference) (t : String) (s : GatewayState) :
    List Verdict × GatewayState :=
  let refs := extract t
  verifyIds cfg ttl fetcher now sim excerptOf refs
    (distinctKeys (refs.map (fun r => r.normalized_id))) s

/-- Events of the single-flight interleaving model: a caller requests the
resolution of an id, or the unique in-flight fetch for an id completes with
an outcome. An arbitrary interleaving is a list of events. -/
inductive SFEvent : Type
  | request : Nat → String → SFEvent
  | complete : String → Except FailureKind StatuteRecord → SFEvent

/-- Modelled from the spec: gateway state for the single-flight concurrency
contract: completed results cached by id, the waiting callers of the (at most
one) in-flight fetch per id, the number of live fetches started per id, and
the outcome delivered to each caller. -/
structure SFState : Type where
  cache : List (String × StatuteRecord)
  inflight : List (String × List Nat)
  fetches : List (String × Nat)
  delivered : List (Nat × Except FailureKind StatuteRecord)

/-- Number of live fetches started for an id. -/
def sfFetchCount (s : SFState) (id : String) : Nat :=
  (lookupA id s.fetches).getD 0

/-- Waiting callers of the in-flight fetch for an id (empty when none). -/
def sfWaiters (s : SFState) (id : String) : List Nat :=
  (lookupA id s.inflight).getD []

/-- Modelled from the spec: one step of the single-flight gateway. A request
is served from the cache when possible; otherwise it joins the existing
in-flight fetch for its id, or starts the fetch when none is in flight.
Completion delivers the same outcome to every waiting caller of the id and
caches the record on success. -/
def sfStep (s : SFState) : SFEvent → SFState
  | SFEvent.request c id =>
      match lookupA id s.cache with
      | some r => { s with delivered := (c, Except.ok r) :: s.delivered }
      | none =>
          let ws := sfWaiters s id
          if ws = [] then
            { s with inflight := (id, [c]) :: s.inflight,
                     fetches := (id, sfFetchCount s id + 1) :: s.fetches }
          else
            { s with inflight := (id, ws ++ [c]) :: s.inflight }
  | SFEvent.complete id oc =>
      let ws := sfWaiters s id
      { cache := match oc with
                 | Except.ok r => (id, r) :: s.cache
                 | Except.error _ => s.cache,
        inflight := (id, []) :: s.inflight,
        fetches := s.fetches,
        delivered := ws.map (fun c => (c, oc)) ++ s.delivered }

/-- Run the single-flight model over an interleaving of events. -/
def sfRun (s : SFState) (evs : List SFEvent) : SFState := evs.foldl sfStep s

/-- The initial single-flight state: empty cache, nothing in flight. -/
def sfInit : SFState :=
  { cache := [], inflight := [], fetches := [], delivered := [] }

/-- Escape of one character as performed by the browser when serializing a
text node back through innerHTML (the DOM is an external capability of
frontend/script.js escapeHtml, modelled per the HTML fragment serialization
algorithm for text content). -/
def escapeChar (c : Char) : String :=
  if c = '&' then "&amp;"
  else if c = '<' then "&lt;"
  else if c = '>' then "&gt;"
  else String.mk [c]

/-- Character-wise escaping of a whole character list. -/
def escapeList : List Char → List Char
  | [] => []
  | c :: cs => (escapeChar c).data ++ escapeList cs

/-- frontend/script.js escapeHtml on a proper string: assigning the string as
textContent of a div and reading back innerHTML serializes every
HTML-special character to its entity reference. -/
def escapeHtmlStr (s : String) : String := String.mk (escapeList s.data)

/-- frontend/script.js escapeHtml: a falsy argument (null, undefined, or the
empty string, modelled as `none` / `some ""`) returns the empty string;
otherwise the DOM-escaped string. -/
def escapeHtml : Option String → String
  | none => ""
  | some t => if t = "" then "" else escapeHtmlStr t

/-- JavaScript `text.substring(0, e)` for a possibly negative end index:
the end index is clamped to [0, length] and the first `e` characters are
taken (string indices modelled at character granularity). -/
def jsSubstring0 (s : String) (e : Int) : String := String.mk (s.data.take e.toNat)

/-- frontend/script.js truncateText: a falsy text (null, undefined, or the
empty string) returns the empty string; a text no longer than maxLength is
returned unchanged; otherwise the first maxLength characters (clamped at 0
the way substring clamps) followed by an ellipsis. maxLength is a JavaScript
number, modelled as an integer. -/
def truncateText : Option String → Int → String
  | none, _ => ""
  | some t, maxLength =>
      if t = "" then ""
      else if (t.length : Int) ≤ maxLength then t
      else jsSubstring0 t maxLength ++ "..."

/-- C1: for a reference whose gateway resolution succeeded and whose
extraction confidence is at least the configured minimum, the classifier
returns `matched` exactly when the comparison score is at least
`match_threshold` and `discrepant` exactly when it is strictly below, and the
boundary score equal to `match_threshold` is classified `matched`. -/
theorem classify_threshold_boundary (cfg : Config) (ref : Reference)
    (cr : ComparisonResult) (r : StatuteRecord)
    (hconf : cfg.min_confidence ≤ ref.confidence) :
    ((classify cfg ref (some cr) (GatewayOutcome.success r)).status = Status.matched ↔
      cfg.match_threshold ≤ cr.similarity_score) ∧
    ((classify cfg ref (some cr) (GatewayOutcome.success r)).status = Status.discrepant ↔
      cr.similarity_score < cfg.match_threshold) ∧
    (cr.similarity_score = cfg.match_threshold →
      (classify cfg ref (some cr) (GatewayOutcome.success r)).status = Status.matched) := by
  have hnc : ¬ ref.confidence < cfg.min_confidence := not_lt.mpr hconf
  unfold classify
  simp only [hnc, if_false]
  by_cases hth : cfg.match_threshold ≤ cr.similarity_score
  · simp [hth, not_lt.mpr hth]
  · refine ⟨by simp [hth], by simp [hth, not_le.mp hth], ?_⟩
    intro he
    exact absurd (le_of_eq he.symm) hth

/-- Witness for C1 at concrete inputs, with the comparison score exactly at
the threshold: the boundary is classified `matched`. -/
theorem classify_threshold_boundary_witness :
    ((1 : ℚ) / 2 ≤ (3 : ℚ) / 4) ∧
    ((classify ⟨1/2, 7/10⟩ ⟨"section 456.013", "456.013", ⟨0, 15⟩, 3/4⟩
        (some ⟨"456.013", 7/10, "section 456.013", "Licensure", "embedding-cosine"⟩)
        (GatewayOutcome.success
          (mkRecord "456.013" "Licensure" "Department of Health" 0 Origin.live))).status =
          Status.matched ↔
      (7 : ℚ) / 10 ≤ 7/10) := by
  refine ⟨by norm_num, ?_⟩
  exact (classify_threshold_boundary ⟨1/2, 7/10⟩ ⟨"section 456.013", "456.013", ⟨0, 15⟩, 3/4⟩
    ⟨"456.013", 7/10, "section 456.013", "Licensure", "embedding-cosine"⟩
    (mkRecord "456.013" "Licensure" "Department of Health" 0 Origin.live)
    (by norm_num)).1

/-- C3: the verdict status is three-valued: with a completed comparison in
hand, `unresolved` is produced exactly when the gateway failed or the
extraction confidence is below the minimum; a gateway failure is never
classified `matched` or `discrepant`; and `discrepant` holds exactly when the
gateway succeeded, the confidence met the minimum, and the completed
comparison scored strictly below the threshold. -/
theorem classify_three_valued (cfg : Config) (ref : Reference)
    (cr : ComparisonResult) (out : GatewayOutcome) :
    ((classify cfg ref (some cr) out).status = Status.unresolved ↔
      (∃ k, out = GatewayOutcome.failure k) ∨ ref.confidence < cfg.min_confidence) ∧
    (∀ k, out = GatewayOutcome.failure k →
      (classify cfg ref (some cr) out).status ≠ Status.matched ∧
      (classify cfg ref (some cr) out).status ≠ Status.discrepant) ∧
    ((classify cfg ref (some cr) out).status = Status.discrepant ↔
      (∃ r, out = GatewayOutcome.success r) ∧ cfg.min_confidence ≤ ref.confidence ∧
        cr.similarity_score < cfg.match_threshold) := by
  cases out with
  | failure k => simp [classify]
  | success r =>
      by_cases hc : ref.confidence < cfg.min_confidence
      · simp [classify, hc, not_le.mpr hc]
      · by_cases hth : cfg.match_threshold ≤ cr.similarity_score
        · simp [classify, hc, hth, not_lt.mpr hth, not_lt.mp hc]
        · simp [classify, hc, hth, not_le.mp hth, not_lt.mp hc]

/-- Witness for C3 at a concrete gateway failure: the verdict is
`unresolved`, not `matched` and not `discrepant`. -/
theorem classify_three_valued_witness :
    ((classify ⟨1/2, 7/10⟩ ⟨"section 999.999", "999.999", ⟨0, 15⟩, 9/10⟩
        (some ⟨"999.999", 0, "section 999.999", "", "embedding-cosine"⟩)
        (GatewayOutcome.failure FailureKind.notFound)).status = Status.unresolved ↔
      (∃ k, GatewayOutcome.failure FailureKind.notFound = GatewayOutcome.failure k) ∨
        (9 : ℚ) / 10 < 1/2) := by
  exact (classify_three_valued ⟨1/2, 7/10⟩ ⟨"section 999.999", "999.999", ⟨0, 15⟩, 9/10⟩
    ⟨"999.999", 0, "section 999.999", "", "embedding-cosine"⟩
    (GatewayOutcome.failure FailureKind.notFound)).1

/-- C7: for any embedding capability whose raw cosine similarity lies in
[-1,1], `compare` returns a score in [0,1] for every input pair, and an empty
excerpt or canonical text yields score 0 with the distinct empty-input
reason (the function is total, so the value is never undefined or NaN). -/
theorem compare_range_and_empty (sim : String → String → ℚ)
    (hsim : ∀ a b, -1 ≤ sim a b ∧ sim a b ≤ 1) (e c : String) :
    (0 ≤ (compare sim e c).1 ∧ (compare sim e c).1 ≤ 1) ∧
    (e = "" ∨ c = "" → compare sim e c = (0, CompareReason.emptyInput)) := by
  by_cases h : e = "" ∨ c = ""
  · simp [compare, h]
  · have h1 := (hsim e c).1
    have h2 := (hsim e c).2
    constructor
    · constructor
      · simp only [compare, h, if_false, normalizeCos]
        linarith
      · simp only [compare, h, if_false, normalizeCos]
        linarith
    · intro hcon
      exact absurd hcon h

/-- Witness for C7 with the constantly-zero similarity capability and an
empty excerpt: the bounds hold and the empty input is reported. -/
theorem compare_range_and_empty_witness :
    ((0 ≤ (compare (fun _ _ => (0 : ℚ)) "" "canonical text").1 ∧
      (compare (fun _ _ => (0 : ℚ)) "" "canonical text").1 ≤ 1) ∧
    ("" = "" ∨ "canonical text" = "" →
      compare (fun _ _ => (0 : ℚ)) "" "canonical text" = (0, CompareReason.emptyInput))) := by
  exact compare_range_and_empty (fun _ _ => (0 : ℚ))
    (fun _ _ => by norm_num) "" "canonical text"

/-- C5: after a first `resolve` populates the cache for an id, a second
`resolve` within the TTL window leaves the gateway state unchanged — in
particular it performs zero network fetches — and returns the cached record
with origin `cache`. -/
theorem resolve_cache_hit (ttl : Nat)
    (fetcher : String → Except FailureKind (String × String))
    (t0 t1 : Nat) (id ti tx : String) (s0 : GatewayState)
    (hmiss : lookupA id s0.cache = none)
    (hfetch : fetcher (urlFor id) = Except.ok (ti, tx))
    (hfresh : t1 < t0 + ttl) :
    resolve ttl fetcher t1 id (resolve ttl fetcher t0 id s0).2 =
      (Except.ok { mkRecord id ti tx t0 Origin.live with origin := Origin.cache },
       (resolve ttl fetcher t0 id s0).2) ∧
    (resolve ttl fetcher t1 id (resolve ttl fetcher t0 id s0).2).2.fetchCount =
      (resolve ttl fetcher t0 id s0).2.fetchCount := by
  have hs1 : (resolve ttl fetcher t0 id s0).2 =
      { cache := (id, ⟨mkRecord id ti tx t0 Origin.live, t0, ttl⟩) :: s0.cache,
        fetchCount := s0.fetchCount + 1 } := by
    unfold resolve
    rw [hmiss, hfetch]
  have hmain : resolve ttl fetcher t1 id
      ({ cache := (id, ⟨mkRecord id ti tx t0 Origin.live, t0, ttl⟩) :: s0.cache,
         fetchCount := s0.fetchCount + 1 } : GatewayState) =
      (Except.ok { mkRecord id ti tx t0 Origin.live with origin := Origin.cache },
       { cache := (id, ⟨mkRecord id ti tx t0 Origin.live, t0, ttl⟩) :: s0.cache,
         fetchCount := s0.fetchCount + 1 }) := by
    unfold resolve
    simp [lookupA, hfresh]
  rw [hs1]
  exact ⟨hmain, by rw [hmain]⟩

/-- Witness for C5: a concrete miss-then-hit run with a constant fetcher and
a second call one tick later inside a TTL of 5. -/
theorem resolve_cache_hit_witness :
    resolve 5 (fun _ => Except.ok ("Licensure", "Department of Health")) 1 "456.013"
        (resolve 5 (fun _ => Except.ok ("Licensure", "Department of Health")) 0 "456.013"
          ⟨[], 0⟩).2 =
      (Except.ok { mkRecord "456.013" "Licensure" "Department of Health" 0 Origin.live with
          origin := Origin.cache },
       (resolve 5 (fun _ => Except.ok ("Licensure", "Department of Health")) 0 "456.013"
          ⟨[], 0⟩).2) ∧
    (resolve 5 (fun _ => Except.ok ("Licensure", "Department of Health")) 1 "456.013"
        (resolve 5 (fun _ => Except.ok ("Licensure", "Department of Health")) 0 "456.013"
          ⟨[], 0⟩).2).2.fetchCount =
      (resolve 5 (fun _ => Except.ok ("Licensure", "Department of Health")) 0 "456.013"
        ⟨[], 0⟩).2.fetchCount := by
  exact resolve_cache_hit 5 (fun _ => Except.ok ("Licensure", "Department of Health"))
    0 1 "456.013" "Licensure" "Department of Health" ⟨[], 0⟩ rfl rfl (by decide)

/-- C6: when a cache entry exists for an id — here an expired one, so that a
live refresh is attempted — and the refresh fails, `resolve` returns the
existing record marked stale rather than a failure, and the failed fetch
leaves the cache untouched (only the fetch counter moves). -/
theorem resolve_stale_on_failure (ttl : Nat)
    (fetcher : String → Except FailureKind (String × String))
    (now : Nat) (id : String) (s : GatewayState) (e : CacheEntry) (k : FailureKind)
    (hhit : lookupA id s.cache = some e)
    (hexp : e.storedAt + e.ttl ≤ now)
    (hfail : fetcher (urlFor id) = Except.error k) :
    resolve ttl fetcher now id s =
      (Except.ok { e.record with origin := Origin.stale },
       { s with fetchCount := s.fetchCount + 1 }) ∧
    (resolve ttl fetcher now id s).2.cache = s.cache := by
  have hnf : ¬ now < e.storedAt + e.ttl := not_lt.mpr hexp
  constructor
  · unfold resolve
    rw [hhit, hfail]
    simp [hnf]
  · unfold resolve
    rw [hhit, hfail]
    simp [hnf]

/-- Witness for C6: an expired concrete entry, a fetcher that always reports
the source unreachable; the stale record comes back and the cache is
unchanged. -/
theorem resolve_stale_on_failure_witness :
    resolve 5 (fun _ => Except.error FailureKind.unreachable) 10 "456.013"
        ⟨[("456.013", ⟨mkRecord "456.013" "Licensure" "Department of Health" 0 Origin.live,
            0, 5⟩)], 1⟩ =
      (Except.ok { mkRecord "456.013" "Licensure" "Department of Health" 0 Origin.live with
          origin := Origin.stale },
       { cache := [("456.013", ⟨mkRecord "456.013" "Licensure" "Department of Health" 0
            Origin.live, 0, 5⟩)], fetchCount := 2 }) ∧
    (resolve 5 (fun _ => Except.error FailureKind.unreachable) 10 "456.013"
        ⟨[("456.013", ⟨mkRecord "456.013" "Licensure" "Department of Health" 0 Origin.live,
            0, 5⟩)], 1⟩).2.cache =
      [("456.013", ⟨mkRecord "456.013" "Licensure" "Department of Health" 0 Origin.live,
          0, 5⟩)] := by
  exact resolve_stale_on_failure 5 (fun _ => Except.error FailureKind.unreachable) 10
    "456.013"
    ⟨[("456.013", ⟨mkRecord "456.013" "Licensure" "Department of Health" 0 Origin.live,
        0, 5⟩)], 1⟩
    ⟨mkRecord "456.013" "Licensure" "Department of Health" 0 Origin.live, 0, 5⟩
    FailureKind.unreachable (by simp [lookupA]) (by decide)
    rfl

/-- Helper: `verifyIds` emits exactly one verdict per id in its worklist. -/
theorem verifyIds_length (cfg : Config) (ttl : Nat)
    (fetcher : String → Except FailureKind (String × String)) (now : Nat)
    (sim : String → String → ℚ) (excerptOf : Reference → String)
    (refs : List Reference) :
    ∀ (ids : List String) (s : GatewayState),
      (verifyIds cfg ttl fetcher now sim excerptOf refs ids s).1.length = ids.length := by
  intro ids
  induction ids with
  | nil => intro s; rfl
  | cons id rest ih =>
      intro s
      simp only [verifyIds, List.length_cons]
      rw [ih]

/-- Helper: membership in `distinctAux l seen` is membership in `l` outside
`seen`. -/
theorem mem_distinctAux (a : String) :
    ∀ (l seen : List String), a ∈ distinctAux l seen ↔ a ∈ l ∧ a ∉ seen := by
  intro l
  induction l with
  | nil => intro seen; simp [distinctAux]
  | cons x xs ih =>
      intro seen
      by_cases hx : x ∈ seen
      · simp only [distinctAux, if_pos hx]
        rw [ih seen]
        constructor
        · rintro ⟨hm, hn⟩
          exact ⟨List.mem_cons_of_mem x hm, hn⟩
        · rintro ⟨hm, hn⟩
          rcases List.mem_cons.mp hm with he | hm2
          · exact absurd (show a ∈ seen from by rw [he]; exact hx) hn
          · exact ⟨hm2, hn⟩
      · simp only [distinctAux, if_neg hx]
        constructor
        · intro hmem
          rcases List.mem_cons.mp hmem with he | hm
          · subst he
            exact ⟨List.mem_cons_self a xs, hx⟩
          · obtain ⟨hm2, hn⟩ := (ih (x :: seen)).mp hm
            exact ⟨List.mem_cons_of_mem x hm2, fun hs => hn (List.mem_cons_of_mem x hs)⟩
        · rintro ⟨hm, hn⟩
          by_cases hax : a = x
          · subst hax
            exact List.mem_cons_self a _
          · rcases List.mem_cons.mp hm with he | hm2
            · exact absurd he hax
            · refine List.mem_cons_of_mem x ((ih (x :: seen)).mpr ⟨hm2, ?_⟩)
              intro hs
              rcases List.mem_cons.mp hs with h1 | h2
              · exact hax h1
              · exact hn h2

/-- Helper: `distinctAux` never repeats a key. -/
theorem nodup_distinctAux :
    ∀ (l seen : List String), (distinctAux l seen).Nodup := by
  intro l
  induction l with
  | nil => intro seen; simp [distinctAux]
  | cons x xs ih =>
      intro seen
      by_cases hx : x ∈ seen
      · simpa [distinctAux, if_pos hx] using ih seen
      · simp only [distinctAux, if_neg hx]
        refine List.nodup_cons.mpr ⟨?_, ih (x :: seen)⟩
        intro hmem
        have := (mem_distinctAux x xs (x :: seen)).mp hmem
        exact this.2 (List.mem_cons_self x seen)

/-- Helper: the number of first-occurrence-deduplicated keys equals the
number of distinct keys. -/
theorem distinctKeys_length (l : List String) :
    (distinctKeys l).length = l.toFinset.card := by
  have hmem : ∀ a, a ∈ distinctKeys l ↔ a ∈ l := by
    intro a
    simpa [distinctKeys] using mem_distinctAux a l []
  have hnd : (distinctKeys l).Nodup := nodup_distinctAux l []
  have hfs : (distinctKeys l).toFinset = l.toFinset := by
    ext a
    simp [List.mem_toFinset, hmem]
  calc (distinctKeys l).length = (distinctKeys l).toFinset.card :=
        (List.toFinset_card_of_nodup hnd).symm
    _ = l.toFinset.card := by rw [hfs]

/-- Helper: every branch of the classifier carries the normalized id of the
reference it classifies. -/
theorem classify_normalized_id (cfg : Config) (ref : Reference)
    (comp : Option ComparisonResult) (out : GatewayOutcome) :
    (classify cfg ref comp out).normalized_id = ref.normalized_id := by
  cases out with
  | failure k => rfl
  | success r =>
      by_cases h : ref.confidence < cfg.min_confidence
      · simp [classify, h]
      · cases comp with
        | none => simp [classify, h]
        | some cr =>
            by_cases h2 : cfg.match_threshold ≤ cr.similarity_score <;>
              simp [classify, h, h2]

/-- Helper: the per-id verdict carries its id. -/
theorem verdictFor_normalized_id (cfg : Config) (sim : String → String → ℚ)
    (excerptOf : Reference → String) (id : String) (occs : List Reference)
    (res : Except FailureKind StatuteRecord) :
    (verdictFor cfg sim excerptOf id occs res).normalized_id = id := by
  cases res with
  | error k =>
      show (classify cfg (mergedRef id occs) none (GatewayOutcome.failure k)).normalized_id = id
      rw [classify_normalized_id]
      rfl
  | ok r =>
      unfold verdictFor
      rw [classify_normalized_id]
      rfl

/-- Helper: the verdicts emitted by `verifyIds` carry exactly the ids of its
worklist, in order. -/
theorem verifyIds_ids (cfg : Config) (ttl : Nat)
    (fetcher : String → Except FailureKind (String × String)) (now : Nat)
    (sim : String → String → ℚ) (excerptOf : Reference → String)
    (refs : List Reference) :
    ∀ (ids : List String) (s : GatewayState),
      (verifyIds cfg ttl fetcher now sim excerptOf refs ids s).1.map
        (fun v => v.normalized_id) = ids := by
  intro ids
  induction ids with
  | nil => intro s; rfl
  | cons id rest ih =>
      intro s
      simp only [verifyIds, List.map_cons]
      rw [ih, verdictFor_normalized_id]

/-- C2: for every transcript, `verify` produces exactly one verdict per
distinct normalized id extracted from it: the number of verdicts equals the
number of distinct normalized ids of the extracted references, and the
verdicts' normalized ids are exactly the distinct extracted ids in
first-occurrence order (each id's verdict aggregates all its occurrences,
which `verifyIds` passes to `verdictFor` as the filtered occurrence list). -/
theorem verify_verdict_count (cfg : Config) (ttl : Nat)
    (fetcher : String → Except FailureKind (String × String)) (now : Nat)
    (sim : String → String → ℚ) (excerptOf : Reference → String)
    (extract : String → List Reference) (t : String) (s : GatewayState) :
    (verify cfg ttl fetcher now sim excerptOf extract t s).1.length =
      ((extract t).map (fun r => r.normalized_id)).toFinset.card ∧
    (verify cfg ttl fetcher now sim excerptOf extract t s).1.map
        (fun v => v.normalized_id) =
      distinctKeys ((extract t).map (fun r => r.normalized_id)) := by
  constructor
  · unfold verify
    rw [verifyIds_length, distinctKeys_length]
  · unfold verify
    rw [verifyIds_ids]

/-- C8: a transcript from which zero references are extracted yields the
empty sequence of verdicts (and the gateway state untouched); `verify` is a
total function, so no error is raised. -/
theorem verify_empty_transcript (cfg : Config) (ttl : Nat)
    (fetcher : String → Except FailureKind (String × String)) (now : Nat)
    (sim : String → String → ℚ) (excerptOf : Reference → String)
    (extract : String → List Reference) (t : String) (s : GatewayState)
    (h : extract t = []) :
    verify cfg ttl fetcher now sim excerptOf extract t s = ([], s) := by
  unfold verify
  rw [h]
  rfl

/-- Witness for C8: the extractor that finds nothing yields no verdicts on a
concrete transcript. -/
theorem verify_empty_transcript_witness :
    verify ⟨1/2, 7/10⟩ 5 (fun _ => Except.error FailureKind.unreachable) 0
      (fun _ _ => 0) (fun r => r.raw_text) (fun _ => []) "no citations here"
      ⟨[], 0⟩ = ([], ⟨[], 0⟩) := by
  exact verify_empty_transcript ⟨1/2, 7/10⟩ 5 (fun _ => Except.error FailureKind.unreachable)
    0 (fun _ _ => 0) (fun r => r.raw_text) (fun _ => []) "no citations here" ⟨[], 0⟩ rfl

/-- Helper: the escape of a single character never contains a literal angle
bracket. -/
theorem escapeChar_no_markup (c : Char) :
    '<' ∉ (escapeChar c).data ∧ '>' ∉ (escapeChar c).data := by
  unfold escapeChar
  split_ifs with h1 h2 h3
  · exact ⟨by decide, by decide⟩
  · exact ⟨by decide, by decide⟩
  · exact ⟨by decide, by decide⟩
  · constructor
    · intro hmem
      have : '<' = c := List.mem_singleton.mp hmem
      exact h2 this.symm
    · intro hmem
      have : '>' = c := List.mem_singleton.mp hmem
      exact h3 this.symm

/-- Helper: character-wise escaping of a list never produces a literal angle
bracket. -/
theorem escapeList_no_markup (l : List Char) :
    '<' ∉ escapeList l ∧ '>' ∉ escapeList l := by
  induction l with
  | nil => simp [escapeList]
  | cons c cs ih =>
      have hc := escapeChar_no_markup c
      simp only [escapeList, List.mem_append, not_or]
      exact ⟨⟨hc.1, ih.1⟩, ⟨hc.2, ih.2⟩⟩

/-- C9: `escapeHtml` maps every falsy input (null/undefined, modelled as
`none`, or the empty string) to the empty string, and for every string input
its output contains no literal angle-bracket character: each HTML-special
character is serialized as its entity reference, so the input is rendered as
text, not markup, when inserted into innerHTML. -/
theorem escapeHtml_no_markup :
    escapeHtml none = "" ∧ escapeHtml (some "") = "" ∧
    ∀ t : String, '<' ∉ (escapeHtml (some t)).data ∧ '>' ∉ (escapeHtml (some t)).data := by
  refine ⟨rfl, rfl, ?_⟩
  intro t
  by_cases h : t = ""
  · subst h
    exact ⟨by simp [escapeHtml], by simp [escapeHtml]⟩
  · simp only [escapeHtml, if_neg h, escapeHtmlStr]
    exact escapeList_no_markup t.data

/-- Witness for C9 at a markup-laden concrete input. -/
theorem escapeHtml_no_markup_witness :
    '<' ∉ (escapeHtml (some "a<b&c>")).data ∧ '>' ∉ (escapeHtml (some "a<b&c>")).data :=
  escapeHtml_no_markup.2.2 "a<b&c>"

/-- C10 counterexample: at the JavaScript call `truncateText("ab", -1)` the
text is truthy and longer than maxLength, `substring(0, -1)` clamps to the
empty string, and the result is the bare ellipsis of length 3, which exceeds
maxLength + 3 = 2. The claim as stated, quantified over every maxLength, is
therefore false. -/
theorem truncateText_negative_maxLength :
    truncateText (some "ab") (-1) = "..." ∧
    ¬ (((truncateText (some "ab") (-1)).length : Int) ≤ -1 + 3) := by
  constructor
  · rfl
  · decide

/-- C10 amended: for a nonnegative maxLength, `truncateText` maps falsy
input to the empty string, returns text of length at most maxLength
unchanged, otherwise returns the first maxLength characters followed by an
ellipsis, and the result length never exceeds maxLength + 3. -/
theorem truncateText_spec (t : String) (m : Int) (hm : 0 ≤ m) :
    truncateText none m = "" ∧ truncateText (some "") m = "" ∧
    ((t.length : Int) ≤ m → truncateText (some t) m = t) ∧
    (m < (t.length : Int) →
      truncateText (some t) m = String.mk (t.data.take m.toNat) ++ "...") ∧
    ((truncateText (some t) m).length : Int) ≤ m + 3 := by
  refine ⟨rfl, by simp [truncateText], ?_⟩
  by_cases ht : t = ""
  · subst ht
    have h0 : ("" : String).length = 0 := rfl
    have htr : truncateText (some "") m = "" := by simp [truncateText]
    refine ⟨fun _ => htr, fun hlt => ?_, ?_⟩
    · rw [h0] at hlt
      exact absurd hlt (by omega)
    · rw [htr, h0]
      omega
  · by_cases hle : (t.length : Int) ≤ m
    · refine ⟨fun _ => by simp [truncateText, ht, hle], fun hlt => absurd hle (not_le.mpr hlt), ?_⟩
      simp only [truncateText, if_neg ht, if_pos hle]
      omega
    · have hlt : m < (t.length : Int) := not_le.mp hle
      refine ⟨fun hc => absurd hc hle, fun _ => by simp [truncateText, ht, hle, jsSubstring0], ?_⟩
      simp only [truncateText, if_neg ht, if_neg hle, jsSubstring0]
      have hlen : (String.mk (t.data.take m.toNat) ++ "...").length =
          (t.data.take m.toNat).length + 3 := by
        rw [String.length_append]
        rfl
      rw [hlen]
      have htake := List.length_take_le m.toNat t.data
      have hmt : (m.toNat : Int) = m := Int.toNat_of_nonneg hm
      omega

/-- Witness for C10's amended claim at text "abcdef" and maxLength 4. -/
theorem truncateText_spec_witness :
    truncateText none 4 = "" ∧ truncateText (some "") 4 = "" ∧
    (("abcdef".length : Int) ≤ 4 → truncateText (some "abcdef") 4 = "abcdef") ∧
    ((4 : Int) < ("abcdef".length : Int) →
      truncateText (some "abcdef") 4 =
        String.mk ("abcdef".data.take (4 : Int).toNat) ++ "...") ∧
    ((truncateText (some "abcdef") 4).length : Int) ≤ 4 + 3 :=
  truncateText_spec "abcdef" 4 (by decide)

/-- Helper: running an interleaving splits along an append of event lists. -/
theorem sfRun_append (s : SFState) (a b : List SFEvent) :
    sfRun s (a ++ b) = sfRun (sfRun s a) b :=
  List.foldl_append sfStep s a b

/-- Helper: while a fetch for `id` is in flight, further concurrent requests
for `id` only join the waiting list — the cache, the fetch counts, and the
delivered outcomes are untouched, and the waiters grow in arrival order. -/
theorem sfRun_requests_join (id : String) :
    ∀ (cs : List Nat) (s : SFState) (ws : List Nat),
      lookupA id s.cache = none → sfWaiters s id = ws → ws ≠ [] →
      (sfRun s (cs.map (fun c => SFEvent.request c id))).cache = s.cache ∧
      sfWaiters (sfRun s (cs.map (fun c => SFEvent.request c id))) id = ws ++ cs ∧
      (sfRun s (cs.map (fun c => SFEvent.request c id))).fetches = s.fetches ∧
      (sfRun s (cs.map (fun c => SFEvent.request c id))).delivered = s.delivered := by
  intro cs
  induction cs with
  | nil =>
      intro s ws hc hw _
      simp [sfRun, hw]
  | cons c cs ih =>
      intro s ws hc hw hne
      have hstep : sfStep s (SFEvent.request c id) =
          { s with inflight := (id, ws ++ [c]) :: s.inflight } := by
        simp only [sfStep, hc]
        rw [show sfWaiters s id = ws from hw, if_neg hne]
      have hrun : sfRun s ((c :: cs).map (fun c => SFEvent.request c id)) =
          sfRun ({ s with inflight := (id, ws ++ [c]) :: s.inflight })
            (cs.map (fun c => SFEvent.request c id)) := by
        simp only [List.map_cons]
        show sfRun (sfStep s (SFEvent.request c id)) _ = _
        rw [hstep]
      rw [hrun]
      have hw' : sfWaiters ({ s with inflight := (id, ws ++ [c]) :: s.inflight }) id =
          ws ++ [c] := by
        simp [sfWaiters, lookupA]
      have := ih ({ s with inflight := (id, ws ++ [c]) :: s.inflight }) (ws ++ [c]) hc hw'
        (by simp)
      refine ⟨this.1, ?_, this.2.2.1, this.2.2.2⟩
      rw [this.2.1, List.append_assoc]
      rfl

/-- Helper: looking up any listed caller in a constant-outcome delivery table
finds that outcome. -/
theorem lookupA_map_const (oc : Except FailureKind StatuteRecord) :
    ∀ (l : List Nat) (c : Nat), c ∈ l →
      lookupA c (l.map (fun x => (x, oc))) = some oc := by
  intro l
  induction l with
  | nil => intro c hc; exact absurd hc (List.not_mem_nil c)
  | cons x xs ih =>
      intro c hc
      by_cases hcx : c = x
      · simp [lookupA, hcx]
      · rcases List.mem_cons.mp hc with h1 | h2
        · exact absurd h1 hcx
        · simp only [List.map_cons, lookupA, if_neg hcx]
          exact ih c h2

/-- C4: single-flight semantics: when N concurrent resolve calls for the
same id arrive while no cache entry exists (any nonempty list of callers,
interleaved before the fetch completes), exactly one live fetch is started,
and on completion every caller receives the same resulting record or
failure. -/
theorem sf_single_flight (id : String) (callers : List Nat)
    (oc : Except FailureKind StatuteRecord) (hne : callers ≠ []) :
    sfFetchCount (sfRun sfInit (callers.map (fun c => SFEvent.request c id) ++
      [SFEvent.complete id oc])) id = 1 ∧
    ∀ c ∈ callers,
      lookupA c (sfRun sfInit (callers.map (fun c => SFEvent.request c id) ++
        [SFEvent.complete id oc])).delivered = some oc := by
  obtain ⟨c0, cs, rfl⟩ : ∃ c0 cs, callers = c0 :: cs := by
    cases callers with
    | nil => exact absurd rfl hne
    | cons a l => exact ⟨a, l, rfl⟩
  · have hstep0 : sfStep sfInit (SFEvent.request c0 id) =
        (⟨[], [(id, [c0])], [(id, 1)], []⟩ : SFState) := by
      simp [sfStep, sfInit, sfWaiters, sfFetchCount, lookupA]
    have hreq : sfRun sfInit ((c0 :: cs).map (fun c => SFEvent.request c id)) =
        sfRun (⟨[], [(id, [c0])], [(id, 1)], []⟩ : SFState)
          (cs.map (fun c => SFEvent.request c id)) := by
      simp only [List.map_cons]
      show sfRun (sfStep sfInit (SFEvent.request c0 id)) _ = _
      rw [hstep0]
    have hjoin := sfRun_requests_join id cs (⟨[], [(id, [c0])], [(id, 1)], []⟩ : SFState)
      [c0] rfl (by simp [sfWaiters, lookupA]) (by simp)
    rw [sfRun_append, hreq]
    set s2 := sfRun (⟨[], [(id, [c0])], [(id, 1)], []⟩ : SFState)
      (cs.map (fun c => SFEvent.request c id)) with hs2
    have hfinal : sfRun s2 [SFEvent.complete id oc] =
        { cache := (match oc with
                    | Except.ok r => (id, r) :: s2.cache
                    | Except.error _ => s2.cache),
          inflight := (id, []) :: s2.inflight,
          fetches := s2.fetches,
          delivered := (sfWaiters s2 id).map (fun c => (c, oc)) ++ s2.delivered } := by
      rfl
    rw [hfinal]
    constructor
    · show (lookupA id s2.fetches).getD 0 = 1
      rw [hjoin.2.2.1]
      simp [lookupA]
    · intro c hc
      show lookupA c ((sfWaiters s2 id).map (fun c => (c, oc)) ++ s2.delivered) = some oc
      rw [hjoin.2.1, hjoin.2.2.2]
      simp only [List.append_nil]
      exact lookupA_map_const oc (c0 :: cs) c hc

/-- Witness for C4: three concurrent callers for one id, a successful
completion; one fetch, and all three receive the same record. -/
theorem sf_single_flight_witness :
    sfFetchCount (sfRun sfInit ([1, 2, 3].map (fun c => SFEvent.request c "456.013") ++
      [SFEvent.complete "456.013"
        (Except.ok (mkRecord "456.013" "Licensure" "Department of Health" 0 Origin.live))]))
      "456.013" = 1 ∧
    ∀ c ∈ [1, 2, 3],
      lookupA c (sfRun sfInit ([1, 2, 3].map (fun c => SFEvent.request c "456.013") ++
        [SFEvent.complete "456.013"
          (Except.ok (mkRecord "456.013" "Licensure" "Department of Health" 0
            Origin.live))])).delivered =
        some (Except.ok (mkRecord "456.013" "Licensure" "Department of Health" 0
          Origin.live)) :=
  sf_single_flight "456.013" [1, 2, 3]
    (Except.ok (mkRecord "456.013" "Licensure" "Department of Health" 0 Origin.live))
    (by simp)

end CourtCaseVibe
